import Mathlib

/-!
Verification development for `evennia/commands/default/help.py`.

The file shallowly embeds the help-system module: the pure formatting layer
(`format_help_entry`, `format_help_list`), the query handler `CmdHelp.parse` /
`CmdHelp.func`, and the editor command `CmdSetHelp.func`.  Externally owned
helpers that the module calls (Python `str.lower`/`str.strip`/`str.title`,
`textwrap`-based `fill` and `dedent`, the ORM topic lookup `find_topicmatch`,
the similarity helper `string_suggestions`, and `create_help_entry`) are
modelled from the specification; each such definition is marked
`Modelled from the spec:` in its doc comment.  Everything else is translated
directly from the source.
-/

namespace EvenniaHelp

/-- Modelled from the spec: ASCII fragment of Python `str.lower`, used by
`CmdHelp.parse` to normalise the query (`self.args.strip().lower()`). -/
def charLower (c : Char) : Char :=
  if h : 65 ≤ c.toNat ∧ c.toNat ≤ 90 then
    ⟨c.val + 32, by
      have h2 : c.val.toNat ≤ 90 := h.2
      have hadd : (c.val + 32).toNat = c.val.toNat + 32 := by
        rw [UInt32.toNat_add]
        have h32 : (32 : UInt32).toNat = 32 := rfl
        rw [h32]
        exact Nat.mod_eq_of_lt (by simp [UInt32.size]; omega)
      exact Or.inl (by rw [hadd]; omega)⟩
  else c

/-- Modelled from the spec: ASCII fragment of Python `str.upper` on a single
character, used by `str.title` when rendering category headers. -/
def charUpper (c : Char) : Char :=
  if h : 97 ≤ c.toNat ∧ c.toNat ≤ 122 then
    ⟨c.val - 32, by
      have h1 : 97 ≤ c.val.toNat := h.1
      have h2 : c.val.toNat ≤ 122 := h.2
      have hsub : (c.val - 32).toNat = c.val.toNat - 32 := by
        rw [UInt32.toNat_sub_of_le]
        rfl
        show (32 : UInt32).toNat ≤ c.val.toNat
        have h32 : (32 : UInt32).toNat = 32 := rfl
        omega
      exact Or.inl (by rw [hsub]; omega)⟩
  else c

/-- Characters treated as whitespace by Python `str.strip` (ASCII fragment). -/
def isSpaceChar (c : Char) : Bool :=
  c.toNat = 32 || c.toNat = 9 || c.toNat = 10 || c.toNat = 13 || c.toNat = 11 || c.toNat = 12

/-- Modelled from the spec: Python `str.lower` (ASCII fragment). -/
def pyLower (s : String) : String := ⟨s.data.map charLower⟩

/-- Left strip on the character list. -/
def lstripD (l : List Char) : List Char := l.dropWhile isSpaceChar

/-- Right strip on the character list. -/
def rstripD (l : List Char) : List Char := (l.reverse.dropWhile isSpaceChar).reverse

/-- Modelled from the spec: Python `str.strip` (both ends). -/
def pyStrip (s : String) : String := ⟨rstripD (lstripD s.data)⟩

/-- Modelled from the spec: Python `str.rstrip`. -/
def pyRstrip (s : String) : String := ⟨rstripD s.data⟩

/-- Helper for `pyTitle`: the Boolean argument records whether the previous
character was alphabetic. -/
def pyTitleGo : Bool → List Char → List Char
  | _, [] => []
  | prevAlpha, c :: cs =>
    (if c.isAlpha then (if prevAlpha then charLower c else charUpper c) else c)
      :: pyTitleGo c.isAlpha cs

/-- Modelled from the spec: Python `str.title`, used when rendering category
names in `format_help_list`. -/
def pyTitle (s : String) : String := ⟨pyTitleGo false s.data⟩

/-- Client display width (`settings.CLIENT_DEFAULT_WIDTH`, Evennia default 78). -/
def CLIENT_DEFAULT_WIDTH : Nat := 78

/-- Separator line `_SEP = "{C" + "-" * _DEFAULT_WIDTH + "{n"` from the source. -/
def _SEP : String := "\x7bC" ++ ⟨List.replicate CLIENT_DEFAULT_WIDTH (Char.ofNat 45)⟩ ++ "\x7bn"

/-- Helper for `splitChar`: accumulates the current segment in reverse. -/
def splitCharGo (p : Char → Bool) : List Char → List Char → List (List Char)
  | [], cur => [cur.reverse]
  | c :: cs, cur =>
    if p c then cur.reverse :: splitCharGo p cs [] else splitCharGo p cs (c :: cur)

/-- Split a string at every character satisfying `p` (Python `str.split` with a
one-character separator; empty segments are kept). -/
def splitChar (p : Char → Bool) (s : String) : List String :=
  (splitCharGo p s.data []).map (fun l => ⟨l⟩)

/-- Boolean prefix test on character lists. -/
def startsWithD : List Char → List Char → Bool
  | [], _ => true
  | _ :: _, [] => false
  | a :: as, b :: bs => a = b && startsWithD as bs

/-- Modelled from the spec: Python `str.startswith`: does `s` start with
`pre`? -/
def pyStartswith (s pre : String) : Bool := startsWithD pre.data s.data

/-- Words of a text, as split by the line filler. -/
def fillWords (s : String) : List String :=
  (splitChar (fun c => c.toNat = 32) s).filter (fun w => ¬ w = "")

/-- Greedy line packing used by the `fill` model.  `acc` holds finished lines
and `cur` the line under construction. -/
def fillLoop (acc : List String) (cur : String) : List String → List String
  | [] => acc ++ [cur]
  | w :: ws =>
    if cur = "" then fillLoop acc w ws
    else if cur.length + 1 + w.length ≤ CLIENT_DEFAULT_WIDTH then
      fillLoop acc (cur ++ " " ++ w) ws
    else fillLoop (acc ++ [cur]) w ws

/-- Lines produced by filling a text to the client width. -/
def fillLines (s : String) : List String := fillLoop [] "" (fillWords s)

/-- Modelled from the spec: `evennia.utils.utils.fill`, greedy line-wrapping of
a text to the fixed client width. -/
def fill (s : String) : String := String.intercalate "\n" (fillLines s)

/-- Modelled from the spec: `textwrap`-style `dedent`, removal of the common
leading whitespace of all non-blank lines. -/
def dedent (s : String) : String :=
  let lines := splitChar (fun c => c.toNat = 10) s
  let indents := (lines.filter (fun l => ¬ pyStrip l = "")).map
    (fun l => (l.data.takeWhile isSpaceChar).length)
  let common := (indents.min?).getD 0
  String.intercalate "\n" (lines.map (fun l => ⟨l.data.drop common⟩))

/-- Body of `format_help_entry` between the enclosing separators: the title
part, the alias part, the help text and the suggestion footer, each emitted
only when its argument is truthy, exactly as in the source. -/
def feBody (title help_text : String) (aliases suggested : List String) : String :=
  (if ¬ title = "" then "\x7bCHelp for \x7bw" ++ title ++ "\x7bn" else "")
    ++ (if ¬ aliases = [] then
          " \x7bC(aliases: "
            ++ String.intercalate "\x7bC,\x7bn " (aliases.map (fun ali => "\x7bw" ++ ali ++ "\x7bn"))
            ++ "\x7bC)\x7bn"
        else "")
    ++ (if ¬ help_text = "" then "\n" ++ dedent (pyRstrip help_text) else "")
    ++ (if ¬ suggested = [] then
          "\n\n\x7bCSuggested:\x7bn "
            ++ fill (String.intercalate "\x7bC,\x7bn " (suggested.map (fun sug => "\x7bw" ++ sug ++ "\x7bn")))
        else "")

/-- Translation of `format_help_entry` (the dangling no-op `string.strip()` of
the source is dropped, since its result is discarded there). -/
def format_help_entry (title help_text : String) (aliases suggested : List String) : String :=
  _SEP ++ "\n" ++ feBody title help_text aliases suggested ++ "\n" ++ _SEP

/-- Help dictionaries `{category: [entry name, ...]}` are embedded as
association lists in insertion order, mirroring Python dict semantics. -/
abbrev HDict := List (String × List String)

/-- Lookup of a category in a help dictionary (empty when absent). -/
def hdictGet : HDict → String → List String
  | [], _ => []
  | p :: ps, cat => if p.1 = cat then p.2 else hdictGet ps cat

/-- Append an entry name under a category, creating the category at the end on
first use — Python `defaultdict(list)` append semantics. -/
def hdictAdd : HDict → String → String → HDict
  | [], cat, k => [(cat, [k])]
  | p :: ps, cat, k =>
    if p.1 = cat then (p.1, p.2 ++ [k]) :: ps else p :: hdictAdd ps cat k

/-- Keys of a help dictionary. -/
def hdictKeys (h : HDict) : List String := h.map Prod.fst

/-- Python `sorted` on strings (lexicographic by code point). -/
def sortStrings (l : List String) : List String := List.insertionSort (fun a b => a ≤ b) l

/-- Per-category block of the command section of `format_help_list`. -/
def cmdCatBlock (h : HDict) (cat : String) : String :=
  "\n  \x7bw" ++ pyTitle cat ++ "\x7bn:\n"
    ++ "\x7bG" ++ fill (String.intercalate ", " (sortStrings (hdictGet h cat))) ++ "\x7bn"

/-- Per-category block of the database section of `format_help_list` (note the
`\r` of the source). -/
def dbCatBlock (h : HDict) (cat : String) : String :=
  "\n\r  \x7bw" ++ pyTitle cat ++ "\x7bn:\n"
    ++ "\x7bG" ++ fill (String.intercalate ", " (sortStrings (hdictGet h cat))) ++ "\x7bn"

/-- Command-help section of `format_help_list`: emitted only when the
dictionary is truthy and some category has entries. -/
def cmdsSection (h : HDict) : String :=
  if ¬ h = [] ∧ h.any (fun p => ¬ p.2.isEmpty) then
    "\n" ++ _SEP ++ "\n   \x7bCCommand help entries\x7bn\n" ++ _SEP
      ++ String.join ((sortStrings (hdictKeys h)).map (cmdCatBlock h))
  else ""

/-- Database-help section of `format_help_list`. -/
def dbSection (h : HDict) : String :=
  if ¬ h = [] ∧ h.any (fun p => ¬ p.2.isEmpty) then
    "\n\n" ++ _SEP ++ "\n\r  \x7bCOther help entries\x7bn\n" ++ _SEP
      ++ String.join ((sortStrings (hdictKeys h)).map (dbCatBlock h))
  else ""

/-- Translation of `format_help_list`: the command section followed by the
database section, each conditional on having content. -/
def format_help_list (hdict_cmds hdict_db : HDict) : String :=
  cmdsSection hdict_cmds ++ dbSection hdict_db

/-- Embedded command of the active cmdset, as seen by `CmdHelp.func` for one
fixed caller: `access` is the result of `cmd.access(caller)` and `eqQuery` is
modelled from the spec — the test whether the command equals a textual query
(`cmd == query` in the source, implemented outside this module). -/
structure Cmd where
  key : String
  aliases : List String
  help_category : String
  auto_help : Bool
  access : Bool
  doc : String
  eqQuery : String → Bool

/-- Embedded persisted help topic (`HelpEntry` row), as seen for one fixed
caller: `viewAccess` is the result of `topic.access(caller, "view",
default=True)`. -/
structure Topic where
  id : Nat
  key : String
  entrytext : String
  help_category : String
  aliases : List String
  viewAccess : Bool
  lockstring : String
deriving DecidableEq

/-- State visible to `CmdHelp.func`: the (already de-duplicated) cmdset and
the full help-entry table. -/
structure HelpState where
  cmds : List Cmd
  topics : List Topic

/-- Modelled from the spec: `HelpEntry.objects.find_topicmatch(query,
exact=True)` — the database help topics matching the query exactly.  It runs
over the whole table (the manager receives no caller). -/
def find_topicmatch_exact (topics : List Topic) (query : String) : List Topic :=
  topics.filter (fun t => t.key = query)

/-- Modelled from the spec: `HelpEntry.objects.find_topicmatch(querystr)` as
used by `CmdSetHelp.func` — per the source comment it also searches by alias. -/
def find_topicmatch (topics : List Topic) (querystr : String) : List Topic :=
  topics.filter (fun t => t.key = querystr || t.aliases.contains querystr)

/-- Modelled from the spec: `evennia.utils.utils.string_suggestions` — the
trivial string-similarity step, returning at most `maxnum` vocabulary entries
whose similarity score (an externally supplied rating `sim`) reaches the
cutoff. -/
def string_suggestions (sim : String → String → ℚ) (query : String)
    (voc : List String) (cutoff : ℚ) (maxnum : Nat) : List String :=
  (voc.filter (fun w => cutoff ≤ sim query w)).take maxnum

/-- First-occurrence de-duplication, embedding Python `set(...)` built from a
list (the set order is unspecified in Python; this model fixes it). -/
def dedupFirst (l : List String) : List String :=
  l.foldl (fun acc x => if acc.contains x then acc else acc ++ [x]) []

/-- Accessible auto-help commands: `[cmd for cmd in cmdset if cmd.auto_help
and cmd.access(caller)]`. -/
def accessibleCmds (st : HelpState) : List Cmd :=
  st.cmds.filter (fun c => c.auto_help && c.access)

/-- Accessible database topics: `[topic for topic in HelpEntry.objects.all()
if topic.access(caller, "view", default=True)]`. -/
def accessibleTopics (st : HelpState) : List Topic :=
  st.topics.filter (fun t => t.viewAccess)

/-- Lower-cased help categories of the accessible commands and topics,
de-duplicated (`list(set(...))` in the source). -/
def allCategoriesOf (st : HelpState) : List String :=
  dedupFirst ((accessibleCmds st).map (fun c => pyLower c.help_category)
    ++ (accessibleTopics st).map (fun t => pyLower t.help_category))

/-- Suggestion vocabulary: command keys, topic keys, category names, then all
command aliases (`vocabulary.extend(cmd.aliases)`). -/
def vocabularyOf (st : HelpState) : List String :=
  (accessibleCmds st).map (fun c => c.key)
    ++ (accessibleTopics st).map (fun t => t.key)
    ++ allCategoriesOf st
    ++ (accessibleCmds st).flatMap (fun c => c.aliases)

/-- Cutoff `suggestion_cutoff = 0.6` of `CmdHelp.func`, written as an explicit
fraction so that the kernel can evaluate comparisons against it. -/
def suggestion_cutoff : ℚ := ⟨3, 5, by decide, by decide⟩

/-- Bound `suggestion_maxnum = 5` of `CmdHelp.func`. -/
def suggestion_maxnum : Nat := 5

theorem suggestion_cutoff_eq : suggestion_cutoff = 0.6 := by
  rw [suggestion_cutoff, Rat.mk'_eq_divInt, Rat.divInt_eq_div]
  norm_num

/-- Similarity-rated suggestions for a query, minus the query itself. -/
def ratedSuggestionsOf (sim : String → String → ℚ) (st : HelpState) (query : String) :
    List String :=
  (string_suggestions sim query (dedupFirst (vocabularyOf st)) suggestion_cutoff
      suggestion_maxnum).filter
    (fun sugg => ¬ sugg = query)

/-- Suggestions handed to the renderer: the rated ones, or — when those are
empty — the vocabulary entries that start with the query and differ from it. -/
def suggestionsOf (sim : String → String → ℚ) (st : HelpState) (query : String) :
    List String :=
  let rated := ratedSuggestionsOf sim st query
  if rated = [] then
    (vocabularyOf st).filter (fun sugg => (!(sugg == query)) && pyStartswith sugg query)
  else rated

/-- Command auto-help entries matching the query (`[cmd for cmd in all_cmds if
cmd == query]`). -/
def cmdMatchesOf (st : HelpState) (query : String) : List Cmd :=
  (accessibleCmds st).filter (fun c => c.eqQuery query)

/-- Category/entry-name dictionary built from a list, embedding the
`defaultdict(list)` append loops of the source. -/
def bucketBy (catf keyf : α → String) (l : List α) : HDict :=
  l.foldl (fun h x => hdictAdd h (catf x) (keyf x)) []

/-- Full grouped listing rendered for the queries `list` and `all`. -/
def fullListingOf (st : HelpState) : String :=
  format_help_list
    (bucketBy (fun c => c.help_category) (fun c => c.key) (accessibleCmds st))
    (bucketBy (fun t => t.help_category) (fun t => t.key) (accessibleTopics st))

/-- Single-category listing rendered when the query names a category. -/
def categoryListingOf (st : HelpState) (query : String) : String :=
  format_help_list
    [(query, ((accessibleCmds st).filter (fun c => c.help_category = query)).map (fun c => c.key))]
    [(query, ((accessibleTopics st).filter (fun t => t.help_category = query)).map (fun t => t.key))]

/-- Translation of `CmdHelp.func`: resolves the (already normalised) query and
returns the single message sent to the caller. -/
def cmdHelpFunc (sim : String → String → ℚ) (st : HelpState) (query0 : String) : String :=
  let query := if query0 = "" then "all" else query0
  if query = "list" ∨ query = "all" then fullListingOf st
  else
    let suggestions := suggestionsOf sim st query
    match cmdMatchesOf st query with
    | [c] => format_help_entry c.key c.doc c.aliases suggestions
    | _ =>
      match find_topicmatch_exact st.topics query with
      | [t] => format_help_entry t.key t.entrytext t.aliases suggestions
      | _ =>
        if (allCategoriesOf st).contains query then categoryListingOf st query
        else format_help_entry "" ("No help entry found for \x27" ++ query ++ "\x27") [] suggestions

/-- Translation of `CmdHelp.parse`: `self.args = self.args.strip().lower()`. -/
def cmdHelpParse (args : String) : String := pyLower (pyStrip args)

/-- One full run of the help command on a raw argument string: parse, then
func. -/
def cmdHelpRun (sim : String → String → ℚ) (st : HelpState) (args : String) : String :=
  cmdHelpFunc sim st (cmdHelpParse args)

/-- Parsed invocation of `CmdSetHelp`, as delivered by the MuxCommand parser:
the raw argument string, the comma-split left-hand side, the right-hand-side
text (empty string embeds both Python `None` and `""`, which the source only
ever tests for falsiness) and the switch list. -/
structure SetHelpInput where
  args : String
  lhslist : List String
  rhs : String
  switches : List String
deriving DecidableEq

/-- First existing entry matched by any of the `;`-separated names, embedding
the `for querystr in topicstrlist` search loop of `CmdSetHelp.func`. -/
def findOldEntry (topics : List Topic) : List String → Option Topic
  | [] => none
  | q :: qs =>
    match find_topicmatch topics q with
    | [] => findOldEntry topics qs
    | t :: _ => some t

/-- Fresh primary key for a created entry (modelled from the spec: the ORM
assigns a new row id). -/
def freshId (topics : List Topic) : Nat :=
  (topics.map (fun t => t.id)).foldr max 0 + 1

/-- Raw topic string of an invocation: `lhslist[0] if nlist > 0 else ""`. -/
def topicstr0Of (inp : SetHelpInput) : String := inp.lhslist.headD ""

/-- The `;`-split name list of an invocation. -/
def topicstrlistOf (inp : SetHelpInput) : List String :=
  splitChar (fun c => c.toNat = 59) (topicstr0Of inp)

/-- Primary topic name (first `;`-component). -/
def topicstrOf (inp : SetHelpInput) : String := (topicstrlistOf inp).headD ""

/-- Aliases of an invocation: the remaining `;`-components, guarded — as in the
source — by the length of the raw topic string. -/
def aliasesOf (inp : SetHelpInput) : List String :=
  if (topicstr0Of inp).length > 1 then (topicstrlistOf inp).tail else []

/-- Alias suffix appended to the feedback messages. -/
def aliastxtOf (inp : SetHelpInput) : String :=
  if ¬ aliasesOf inp = [] then
    "(aliases: " ++ String.intercalate ", " (aliasesOf inp) ++ ")"
  else ""

/-- Existing entry the invocation refers to, if any. -/
def oldEntryOf (st : List Topic) (inp : SetHelpInput) : Option Topic :=
  findOldEntry st (topicstrlistOf inp)

/-- Category of the invocation, lower-cased: the second left-hand-side field,
else the old entry\x27s category, else `"General"` (the `try/except` of the
source reduces to this). -/
def categoryOf (st : List Topic) (inp : SetHelpInput) : String :=
  pyLower (if inp.lhslist.length > 1 then inp.lhslist.getD 1 ""
    else match oldEntryOf st inp with
      | some e => e.help_category
      | none => "General")

/-- Lock string of the invocation: the joined remaining left-hand-side fields,
else the old entry\x27s locks, else `"view:all()"`. -/
def lockstringOf (st : List Topic) (inp : SetHelpInput) : String :=
  if inp.lhslist.length > 2 then String.intercalate "," (inp.lhslist.drop 2)
  else match oldEntryOf st inp with
    | some e => e.lockstring
    | none => "view:all()"

/-- Usage message of `CmdSetHelp.func`. -/
def setHelpUsageMsg : String :=
  "Usage: @sethelp[/switches] <topic>[;alias;alias][,category[,locks,..] = <text>"

/-- Translation of `CmdSetHelp.func`: returns the updated help-entry table and
the message sent to the caller. -/
def cmdSetHelpFunc (st : List Topic) (inp : SetHelpInput) : List Topic × String :=
  if inp.args = "" then (st, setHelpUsageMsg)
  else if topicstr0Of inp = "" then (st, "You have to define a topic!")
  else
    let topicstr := topicstrOf inp
    let aliases := aliasesOf inp
    let aliastxt := aliastxtOf inp
    let old_entry := oldEntryOf st inp
    let category := categoryOf st inp
    let lockstring := lockstringOf st inp
    if inp.switches.contains "append" || inp.switches.contains "merge"
        || inp.switches.contains "extend" then
      match old_entry with
      | none =>
        (st, "Could not find topic \x27" ++ topicstr ++ "\x27. You must give an exact name.")
      | some e =>
        if inp.rhs = "" then (st, "You must supply text to append/merge.")
        else
          let newtext :=
            if inp.switches.contains "merge" then e.entrytext ++ " " ++ inp.rhs
            else e.entrytext ++ "\n" ++ inp.rhs
          (st.map (fun t => if t.id = e.id then
              { t with entrytext := newtext, aliases := t.aliases ++ aliases } else t),
            "Entry updated:\n" ++ newtext ++ aliastxt)
    else if inp.switches.contains "delete" || inp.switches.contains "del" then
      match old_entry with
      | none => (st, "Could not find topic \x27" ++ topicstr ++ "\x27" ++ aliastxt ++ ".")
      | some e =>
        (st.filter (fun t => ¬ t.id = e.id),
          "Deleted help entry \x27" ++ topicstr ++ "\x27" ++ aliastxt ++ ".")
    else if inp.rhs = "" then (st, "You must supply a help text to add.")
    else
      match old_entry with
      | some e =>
        if inp.switches.contains "replace" then
          (st.map (fun t => if t.id = e.id then
              { t with
                key := topicstr
                entrytext := inp.rhs
                help_category := category
                lockstring := lockstring
                aliases := t.aliases ++ aliases } else t),
            "Overwrote the old topic \x27" ++ topicstr ++ "\x27" ++ aliastxt ++ ".")
        else
          (st, "Topic \x27" ++ topicstr ++ "\x27" ++ aliastxt
            ++ " already exists. Use /replace to overwrite or /append or /merge to add text to it.")
      | none =>
        (st ++ [{ id := freshId st
                  key := topicstr
                  entrytext := inp.rhs
                  help_category := category
                  aliases := aliases
                  viewAccess := true
                  lockstring := lockstring }],
          "Topic \x27" ++ topicstr ++ "\x27" ++ aliastxt ++ " was successfully created.")

theorem charLower_toNat (c : Char) (h : 65 ≤ c.toNat ∧ c.toNat ≤ 90) :
    (charLower c).toNat = c.toNat + 32 := by
  rw [charLower, dif_pos h]
  show (c.val + 32).toNat = c.toNat + 32
  rw [UInt32.toNat_add]
  have h32 : (32 : UInt32).toNat = 32 := rfl
  have h2 : c.val.toNat ≤ 90 := h.2
  rw [h32]
  show (c.val.toNat + 32) % UInt32.size = c.val.toNat + 32
  exact Nat.mod_eq_of_lt (by simp [UInt32.size]; omega)

theorem charLower_eq_of_not (c : Char) (h : ¬ (65 ≤ c.toNat ∧ c.toNat ≤ 90)) :
    charLower c = c := by
  rw [charLower, dif_neg h]

theorem charLower_idem (c : Char) : charLower (charLower c) = charLower c := by
  by_cases h : 65 ≤ c.toNat ∧ c.toNat ≤ 90
  · have h1 := charLower_toNat c h
    apply charLower_eq_of_not
    omega
  · rw [charLower_eq_of_not c h, charLower_eq_of_not c h]

theorem isSpaceChar_charLower (c : Char) : isSpaceChar (charLower c) = isSpaceChar c := by
  by_cases h : 65 ≤ c.toNat ∧ c.toNat ≤ 90
  · have h1 := charLower_toNat c h
    have h65 : 65 ≤ c.toNat := h.1
    have hA : isSpaceChar (charLower c) = false := by
      simp only [isSpaceChar, h1, Bool.or_eq_false_iff, decide_eq_false_iff_not]
      omega
    have hB : isSpaceChar c = false := by
      simp only [isSpaceChar, Bool.or_eq_false_iff, decide_eq_false_iff_not]
      omega
    rw [hA, hB]
  · rw [charLower_eq_of_not c h]

theorem dropWhile_dropWhile (p : α → Bool) (l : List α) :
    (l.dropWhile p).dropWhile p = l.dropWhile p := by
  induction l with
  | nil => rfl
  | cons a t ih =>
    by_cases h : p a = true
    · rw [List.dropWhile_cons_of_pos h, ih]
    · rw [List.dropWhile_cons_of_neg h, List.dropWhile_cons_of_neg h]

theorem lstripD_idem (l : List Char) : lstripD (lstripD l) = lstripD l :=
  dropWhile_dropWhile isSpaceChar l

theorem rstripD_idem (l : List Char) : rstripD (rstripD l) = rstripD l := by
  unfold rstripD
  rw [List.reverse_reverse, dropWhile_dropWhile]

theorem rstripD_cons (c : Char) (t : List Char) :
    rstripD (c :: t) =
      if rstripD t = [] then (if isSpaceChar c then [] else [c]) else c :: rstripD t := by
  unfold rstripD
  rw [show (c :: t).reverse = t.reverse ++ [c] from by simp, List.dropWhile_append]
  by_cases h : t.reverse.dropWhile isSpaceChar = []
  · rw [if_pos (by simp [h]), if_pos (by simp [h])]
    by_cases hc : isSpaceChar c = true
    · rw [if_pos hc, List.dropWhile_cons_of_pos hc]
      rfl
    · rw [if_neg hc, List.dropWhile_cons_of_neg hc]
      rfl
  · rw [if_neg (by simp [h]), if_neg (by simp [h])]
    simp

theorem lstripD_rstripD (l : List Char) : lstripD (rstripD l) = rstripD (lstripD l) := by
  induction l with
  | nil => rfl
  | cons c t ih =>
    by_cases hc : isSpaceChar c = true
    · rw [rstripD_cons]
      rw [show lstripD (c :: t) = lstripD t from List.dropWhile_cons_of_pos hc]
      by_cases ht : rstripD t = []
      · rw [if_pos ht, if_pos hc]
        have : lstripD t = [] := by
          have hall : ∀ x ∈ t.reverse, isSpaceChar x = true := by
            have := ht
            unfold rstripD at this
            rw [List.reverse_eq_nil_iff] at this
            exact List.dropWhile_eq_nil_iff.mp this
          unfold lstripD
          rw [List.dropWhile_eq_nil_iff]
          intro x hx
          exact hall x (by simp [hx])
        rw [this]
        rfl
      · rw [if_neg ht]
        rw [show lstripD (c :: rstripD t) = lstripD (rstripD t) from
          List.dropWhile_cons_of_pos hc]
        rw [ih]
    · rw [rstripD_cons]
      have hl : lstripD (c :: t) = c :: t := List.dropWhile_cons_of_neg hc
      rw [hl, rstripD_cons]
      by_cases ht : rstripD t = []
      · rw [if_pos ht, if_neg hc]
        exact List.dropWhile_cons_of_neg hc
      · rw [if_neg ht]
        exact List.dropWhile_cons_of_neg hc

theorem stripD_idem (l : List Char) :
    rstripD (lstripD (rstripD (lstripD l))) = rstripD (lstripD l) := by
  rw [lstripD_rstripD (lstripD l), lstripD_idem, rstripD_idem]

theorem pyStrip_data (s : String) : (pyStrip s).data = rstripD (lstripD s.data) := rfl

theorem pyStrip_idem (s : String) : pyStrip (pyStrip s) = pyStrip s := by
  unfold pyStrip
  apply congrArg String.mk
  exact stripD_idem s.data

theorem lstripD_map_charLower (l : List Char) :
    lstripD (l.map charLower) = (lstripD l).map charLower := by
  unfold lstripD
  rw [List.dropWhile_map]
  have : (isSpaceChar ∘ charLower) = isSpaceChar := funext isSpaceChar_charLower
  rw [this]

theorem rstripD_map_charLower (l : List Char) :
    rstripD (l.map charLower) = (rstripD l).map charLower := by
  unfold rstripD
  rw [← List.map_reverse, List.dropWhile_map]
  have : (isSpaceChar ∘ charLower) = isSpaceChar := funext isSpaceChar_charLower
  rw [this, List.map_reverse]

theorem pyStrip_pyLower (s : String) : pyStrip (pyLower s) = pyLower (pyStrip s) := by
  unfold pyStrip pyLower
  apply congrArg String.mk
  show rstripD (lstripD (s.data.map charLower)) = (rstripD (lstripD s.data)).map charLower
  rw [lstripD_map_charLower, rstripD_map_charLower]

theorem pyLower_idem (s : String) : pyLower (pyLower s) = pyLower s := by
  unfold pyLower
  apply congrArg String.mk
  show (s.data.map charLower).map charLower = s.data.map charLower
  rw [List.map_map]
  exact List.map_congr_left (fun c _ => charLower_idem c)

theorem cmdHelpParse_idem (args : String) :
    cmdHelpParse (cmdHelpParse args) = cmdHelpParse args := by
  unfold cmdHelpParse
  rw [pyStrip_pyLower, pyLower_idem, pyStrip_idem]

theorem cmdHelpFunc_not_special (sim : String → String → ℚ) (st : HelpState) (q : String)
    (hq : ¬ q = "") (hl : ¬ q = "list") (ha : ¬ q = "all") :
    cmdHelpFunc sim st q =
      (match cmdMatchesOf st q with
       | [c] => format_help_entry c.key c.doc c.aliases (suggestionsOf sim st q)
       | _ =>
         match find_topicmatch_exact st.topics q with
         | [t] => format_help_entry t.key t.entrytext t.aliases (suggestionsOf sim st q)
         | _ =>
           if (allCategoriesOf st).contains q then categoryListingOf st q
           else format_help_entry "" ("No help entry found for \x27" ++ q ++ "\x27") []
             (suggestionsOf sim st q)) := by
  simp only [cmdHelpFunc]
  rw [if_neg hq, if_neg (not_or.mpr ⟨hl, ha⟩)]

theorem cmdHelpFunc_cmd_branch (sim : String → String → ℚ) (st : HelpState) (q : String)
    (hq : ¬ q = "") (hl : ¬ q = "list") (ha : ¬ q = "all") (c : Cmd)
    (hm : cmdMatchesOf st q = [c]) :
    cmdHelpFunc sim st q = format_help_entry c.key c.doc c.aliases (suggestionsOf sim st q) := by
  rw [cmdHelpFunc_not_special sim st q hq hl ha, hm]

theorem cmdHelpFunc_db_branch (sim : String → String → ℚ) (st : HelpState) (q : String)
    (hq : ¬ q = "") (hl : ¬ q = "list") (ha : ¬ q = "all")
    (hlen : ¬ (cmdMatchesOf st q).length = 1) (t : Topic)
    (hm : find_topicmatch_exact st.topics q = [t]) :
    cmdHelpFunc sim st q =
      format_help_entry t.key t.entrytext t.aliases (suggestionsOf sim st q) := by
  rw [cmdHelpFunc_not_special sim st q hq hl ha]
  rcases h2 : cmdMatchesOf st q with _ | ⟨c, _ | ⟨c2, cs⟩⟩
  · rw [hm]
  · exact absurd (by rw [h2]; rfl) hlen
  · rw [hm]

theorem cmdHelpFunc_cat_branch (sim : String → String → ℚ) (st : HelpState) (q : String)
    (hq : ¬ q = "") (hl : ¬ q = "list") (ha : ¬ q = "all")
    (hlen : ¬ (cmdMatchesOf st q).length = 1)
    (hdblen : ¬ (find_topicmatch_exact st.topics q).length = 1)
    (hcat : (allCategoriesOf st).contains q = true) :
    cmdHelpFunc sim st q = categoryListingOf st q := by
  rw [cmdHelpFunc_not_special sim st q hq hl ha]
  rcases h2 : cmdMatchesOf st q with _ | ⟨c, _ | ⟨c2, cs⟩⟩
  · rcases h3 : find_topicmatch_exact st.topics q with _ | ⟨t, _ | ⟨t2, ts⟩⟩
    · rw [if_pos hcat]
    · exact absurd (by rw [h3]; rfl) hdblen
    · rw [if_pos hcat]
  · exact absurd (by rw [h2]; rfl) hlen
  · rcases h3 : find_topicmatch_exact st.topics q with _ | ⟨t, _ | ⟨t2, ts⟩⟩
    · rw [if_pos hcat]
    · exact absurd (by rw [h3]; rfl) hdblen
    · rw [if_pos hcat]

theorem cmdHelpFunc_nomatch_branch (sim : String → String → ℚ) (st : HelpState) (q : String)
    (hq : ¬ q = "") (hl : ¬ q = "list") (ha : ¬ q = "all")
    (hlen : ¬ (cmdMatchesOf st q).length = 1)
    (hdblen : ¬ (find_topicmatch_exact st.topics q).length = 1)
    (hcat : (allCategoriesOf st).contains q = false) :
    cmdHelpFunc sim st q =
      format_help_entry "" ("No help entry found for \x27" ++ q ++ "\x27") []
        (suggestionsOf sim st q) := by
  rw [cmdHelpFunc_not_special sim st q hq hl ha]
  have hcat2 : ¬ (allCategoriesOf st).contains q = true := by rw [hcat]; exact Bool.false_ne_true
  rcases h2 : cmdMatchesOf st q with _ | ⟨c, _ | ⟨c2, cs⟩⟩
  · rcases h3 : find_topicmatch_exact st.topics q with _ | ⟨t, _ | ⟨t2, ts⟩⟩
    · rw [if_neg hcat2]
    · exact absurd (by rw [h3]; rfl) hdblen
    · rw [if_neg hcat2]
  · exact absurd (by rw [h2]; rfl) hlen
  · rcases h3 : find_topicmatch_exact st.topics q with _ | ⟨t, _ | ⟨t2, ts⟩⟩
    · rw [if_neg hcat2]
    · exact absurd (by rw [h3]; rfl) hdblen
    · rw [if_neg hcat2]

/-- Claim C1: for every query that is not `list` or `all`, `CmdHelp.func`
resolves in a fixed order — a unique auto-help command match is rendered
first; otherwise a unique exact database topic match; otherwise a category
listing when the query names a known category; otherwise the
no-help-entry-found message with suggestions.  For `list` and `all` the full
grouped listing is rendered instead. -/
theorem C1_resolution_order (sim : String → String → ℚ) (st : HelpState) (q : String)
    (hq : ¬ q = "") (hl : ¬ q = "list") (ha : ¬ q = "all") :
    (cmdHelpFunc sim st "list" = fullListingOf st) ∧
    (cmdHelpFunc sim st "all" = fullListingOf st) ∧
    (∀ c : Cmd, cmdMatchesOf st q = [c] →
      cmdHelpFunc sim st q = format_help_entry c.key c.doc c.aliases (suggestionsOf sim st q)) ∧
    (¬ (cmdMatchesOf st q).length = 1 → ∀ t : Topic, find_topicmatch_exact st.topics q = [t] →
      cmdHelpFunc sim st q =
        format_help_entry t.key t.entrytext t.aliases (suggestionsOf sim st q)) ∧
    (¬ (cmdMatchesOf st q).length = 1 → ¬ (find_topicmatch_exact st.topics q).length = 1 →
      (allCategoriesOf st).contains q = true →
      cmdHelpFunc sim st q = categoryListingOf st q) ∧
    (¬ (cmdMatchesOf st q).length = 1 → ¬ (find_topicmatch_exact st.topics q).length = 1 →
      (allCategoriesOf st).contains q = false →
      cmdHelpFunc sim st q =
        format_help_entry "" ("No help entry found for \x27" ++ q ++ "\x27") []
          (suggestionsOf sim st q)) :=
  ⟨rfl, rfl,
    fun c hm => cmdHelpFunc_cmd_branch sim st q hq hl ha c hm,
    fun hlen t hm => cmdHelpFunc_db_branch sim st q hq hl ha hlen t hm,
    fun hlen hdb hcat => cmdHelpFunc_cat_branch sim st q hq hl ha hlen hdb hcat,
    fun hlen hdb hcat => cmdHelpFunc_nomatch_branch sim st q hq hl ha hlen hdb hcat⟩

/-- Witness for C1 at a concrete state: on the query `zzz` with no commands and
no topics the no-match branch fires. -/
theorem C1_resolution_order_witness :
    cmdHelpFunc (fun _ _ => 0) ⟨[], []⟩ "zzz" =
      format_help_entry "" "No help entry found for \x27zzz\x27" []
        (suggestionsOf (fun _ _ => 0) ⟨[], []⟩ "zzz") :=
  (C1_resolution_order (fun _ _ => 0) ⟨[], []⟩ "zzz" (by decide) (by decide)
    (by decide)).2.2.2.2.2 (by decide) (by decide) (by decide)

/-- Claim C9 (implicit): an empty or whitespace-only argument behaves exactly
as the query `all` — the caller receives the full grouped listing, not an
error. -/
theorem C9_empty_arg_is_all (sim : String → String → ℚ) (st : HelpState) (args : String)
    (h : pyStrip args = "") :
    cmdHelpRun sim st args = fullListingOf st ∧
    cmdHelpRun sim st args = cmdHelpRun sim st "all" := by
  have h1 : cmdHelpParse args = "" := by
    unfold cmdHelpParse
    rw [h]
    rfl
  constructor
  · show cmdHelpFunc sim st (cmdHelpParse args) = fullListingOf st
    rw [h1]
    rfl
  · show cmdHelpFunc sim st (cmdHelpParse args) = cmdHelpFunc sim st (cmdHelpParse "all")
    rw [h1]
    rfl

/-- Witness for C9: three spaces strip to the empty string and deliver the full
listing. -/
theorem C9_empty_arg_is_all_witness :
    cmdHelpRun (fun _ _ => 0) ⟨[], []⟩ "   " = fullListingOf ⟨[], []⟩ ∧
    cmdHelpRun (fun _ _ => 0) ⟨[], []⟩ "   " = cmdHelpRun (fun _ _ => 0) ⟨[], []⟩ "all" :=
  C9_empty_arg_is_all (fun _ _ => 0) ⟨[], []⟩ "   " (by decide)

/-- Claim C10 (implicit): the behaviour of the help command is invariant under
case and surrounding whitespace of its argument, because `CmdHelp.parse`
normalises with `strip().lower()` before any matching. -/
theorem C10_normalisation_invariance (sim : String → String → ℚ) (st : HelpState)
    (a : String) :
    cmdHelpRun sim st a = cmdHelpRun sim st (pyLower (pyStrip a)) := by
  show cmdHelpFunc sim st (cmdHelpParse a)
    = cmdHelpFunc sim st (cmdHelpParse (cmdHelpParse a))
  rw [cmdHelpParse_idem]

/-- Claim C7: the formatting layer is pure — `format_help_entry` and
`format_help_list` are deterministic functions of their arguments; in this
embedding both are state-free functions into `String`, so they modify no
program state, no argument and no help database. -/
theorem C7_formatting_deterministic :
    (∀ (t₁ t₂ h₁ h₂ : String) (a₁ a₂ s₁ s₂ : List String),
      t₁ = t₂ → h₁ = h₂ → a₁ = a₂ → s₁ = s₂ →
        format_help_entry t₁ h₁ a₁ s₁ = format_help_entry t₂ h₂ a₂ s₂) ∧
    (∀ (hc₁ hc₂ hd₁ hd₂ : HDict), hc₁ = hc₂ → hd₁ = hd₂ →
        format_help_list hc₁ hd₁ = format_help_list hc₂ hd₂) := by
  constructor
  · intro t₁ t₂ h₁ h₂ a₁ a₂ s₁ s₂ ht hh hal hs
    rw [ht, hh, hal, hs]
  · intro hc₁ hc₂ hd₁ hd₂ h1 h2
    rw [h1, h2]

/-- Witness for C7 at concrete arguments. -/
theorem C7_formatting_deterministic_witness :
    format_help_entry "look" "Look around." ["l"] [] =
      format_help_entry "look" "Look around." ["l"] [] ∧
    format_help_list [("General", ["look"])] [] = format_help_list [("General", ["look"])] [] :=
  ⟨C7_formatting_deterministic.1 "look" "look" "Look around." "Look around."
      ["l"] ["l"] [] [] rfl rfl rfl rfl,
    C7_formatting_deterministic.2 [("General", ["look"])] [("General", ["look"])] [] [] rfl rfl⟩

/-- Claim C5: the suggestion step is a pure similarity filter over the
vocabulary — at most 5 suggestions meeting the 0.6 cutoff, never the query
itself; when that filter yields nothing, the suggestions are exactly the
vocabulary entries that start with the query and differ from it, unbounded. -/
theorem C5_suggestion_step (sim : String → String → ℚ) (st : HelpState) (q : String) :
    ((ratedSuggestionsOf sim st q).length ≤ 5) ∧
    (∀ s ∈ ratedSuggestionsOf sim st q, (0.6 : ℚ) ≤ sim q s ∧ ¬ s = q) ∧
    (¬ ratedSuggestionsOf sim st q = [] →
      suggestionsOf sim st q = ratedSuggestionsOf sim st q) ∧
    (ratedSuggestionsOf sim st q = [] →
      suggestionsOf sim st q =
        (vocabularyOf st).filter (fun s => (!(s == q)) && pyStartswith s q)) := by
  refine ⟨?_, ?_, ?_, ?_⟩
  · exact le_trans (List.length_filter_le _ _) (List.length_take_le _ _)
  · intro s hs
    unfold ratedSuggestionsOf at hs
    rw [List.mem_filter] at hs
    obtain ⟨hs1, hs2⟩ := hs
    have hsq : ¬ s = q := of_decide_eq_true hs2
    unfold string_suggestions at hs1
    have hs3 := List.mem_of_mem_take hs1
    rw [List.mem_filter] at hs3
    rw [← suggestion_cutoff_eq]
    exact ⟨of_decide_eq_true hs3.2, hsq⟩
  · intro hne
    simp only [suggestionsOf]
    rw [if_neg hne]
  · intro hemp
    simp only [suggestionsOf]
    rw [if_pos hemp]

/-- Witness for C5 at a concrete state: a similarity rating of 1 puts the
whole vocabulary above the cutoff, so the rated suggestions are used. -/
theorem C5_suggestion_step_witness :
    suggestionsOf (fun _ _ => 1) ⟨[], [⟨0, "look", "text", "General", [], true, "view:all()"⟩]⟩ "loo"
      = ratedSuggestionsOf (fun _ _ => 1)
          ⟨[], [⟨0, "look", "text", "General", [], true, "view:all()"⟩]⟩ "loo" :=
  (C5_suggestion_step (fun _ _ => 1)
    ⟨[], [⟨0, "look", "text", "General", [], true, "view:all()"⟩]⟩ "loo").2.2.1 (by decide)

theorem hdictGet_hdictAdd (h : HDict) (c0 k0 cat k : String)
    (hk : k ∈ hdictGet (hdictAdd h c0 k0) cat) :
    k ∈ hdictGet h cat ∨ (cat = c0 ∧ k = k0) := by
  induction h with
  | nil =>
    simp only [hdictAdd, hdictGet] at hk
    by_cases hc : c0 = cat
    · rw [if_pos hc] at hk
      exact Or.inr ⟨hc.symm, List.mem_singleton.mp hk⟩
    · rw [if_neg hc] at hk
      exact absurd hk (List.not_mem_nil k)
  | cons p ps ih =>
    by_cases hpc : p.1 = c0
    · rw [show hdictAdd (p :: ps) c0 k0 = (p.1, p.2 ++ [k0]) :: ps from by
        simp only [hdictAdd]; rw [if_pos hpc]] at hk
      by_cases hpcat : p.1 = cat
      · rw [show hdictGet ((p.1, p.2 ++ [k0]) :: ps) cat = p.2 ++ [k0] from by
          simp only [hdictGet]; rw [if_pos hpcat]] at hk
        rcases List.mem_append.mp hk with h1 | h1
        · left
          rw [show hdictGet (p :: ps) cat = p.2 from by
            simp only [hdictGet]; rw [if_pos hpcat]]
          exact h1
        · exact Or.inr ⟨hpcat.symm.trans hpc, List.mem_singleton.mp h1⟩
      · rw [show hdictGet ((p.1, p.2 ++ [k0]) :: ps) cat = hdictGet ps cat from by
          simp only [hdictGet]; rw [if_neg hpcat]] at hk
        left
        rw [show hdictGet (p :: ps) cat = hdictGet ps cat from by
          simp only [hdictGet]; rw [if_neg hpcat]]
        exact hk
    · rw [show hdictAdd (p :: ps) c0 k0 = p :: hdictAdd ps c0 k0 from by
        simp only [hdictAdd]; rw [if_neg hpc]] at hk
      by_cases hpcat : p.1 = cat
      · rw [show hdictGet (p :: hdictAdd ps c0 k0) cat = p.2 from by
          simp only [hdictGet]; rw [if_pos hpcat]] at hk
        left
        rw [show hdictGet (p :: ps) cat = p.2 from by
          simp only [hdictGet]; rw [if_pos hpcat]]
        exact hk
      · rw [show hdictGet (p :: hdictAdd ps c0 k0) cat = hdictGet (hdictAdd ps c0 k0) cat from by
          simp only [hdictGet]; rw [if_neg hpcat]] at hk
        rcases ih hk with h1 | h1
        · left
          rw [show hdictGet (p :: ps) cat = hdictGet ps cat from by
            simp only [hdictGet]; rw [if_neg hpcat]]
          exact h1
        · exact Or.inr h1

theorem mem_bucketBy_aux (catf keyf : α → String) :
    ∀ (l : List α) (h0 : HDict) (cat k : String),
      k ∈ hdictGet (l.foldl (fun h x => hdictAdd h (catf x) (keyf x)) h0) cat →
      k ∈ hdictGet h0 cat ∨ ∃ x, x ∈ l ∧ keyf x = k ∧ catf x = cat := by
  intro l
  induction l with
  | nil =>
    intro h0 cat k hk
    exact Or.inl hk
  | cons a t ih =>
    intro h0 cat k hk
    rcases ih (hdictAdd h0 (catf a) (keyf a)) cat k hk with h1 | h1
    · rcases hdictGet_hdictAdd h0 (catf a) (keyf a) cat k h1 with h2 | ⟨hc, hkk⟩
      · exact Or.inl h2
      · exact Or.inr ⟨a, List.mem_cons_self a t, hkk.symm, hc.symm⟩
    · obtain ⟨x, hx, hxx⟩ := h1
      exact Or.inr ⟨x, List.mem_cons_of_mem a hx, hxx⟩

theorem mem_bucketBy (catf keyf : α → String) (l : List α) (cat k : String)
    (hk : k ∈ hdictGet (bucketBy catf keyf l) cat) :
    ∃ x, x ∈ l ∧ keyf x = k ∧ catf x = cat := by
  rcases mem_bucketBy_aux catf keyf l [] cat k hk with h | h
  · exact absurd h (List.not_mem_nil k)
  · exact h

theorem mem_accessibleCmds {st : HelpState} {c : Cmd} (h : c ∈ accessibleCmds st) :
    c ∈ st.cmds ∧ c.auto_help = true ∧ c.access = true := by
  rw [accessibleCmds, List.mem_filter] at h
  obtain ⟨h1, h2⟩ := h
  rw [Bool.and_eq_true] at h2
  exact ⟨h1, h2.1, h2.2⟩

theorem mem_accessibleTopics {st : HelpState} {t : Topic} (h : t ∈ accessibleTopics st) :
    t ∈ st.topics ∧ t.viewAccess = true := by
  rw [accessibleTopics, List.mem_filter] at h
  exact h

/-- Abstract similarity rating used for concrete counterexamples. -/
def simZero : String → String → ℚ := fun _ _ => 0

/-- Topic whose view lock denies the caller. -/
def secretTopic : Topic := ⟨0, "secret", "classified", "general", [], false, "view:none()"⟩

/-- State holding only the view-locked topic. -/
def leakState : HelpState := ⟨[], [secretTopic]⟩

/-- Counterexample to claim C4: the claim promises that no entry failing its
access check ever appears in any rendered output of `CmdHelp.func`, but the
exact database topic match queries the database without the view filter — the
query `secret` renders the topic even though its view access is `false`. -/
theorem C4_counterexample :
    leakState.topics = [secretTopic] ∧
    secretTopic.viewAccess = false ∧
    cmdHelpFunc simZero leakState "secret"
      = format_help_entry secretTopic.key secretTopic.entrytext secretTopic.aliases [] ∧
    "classified".data <:+: (cmdHelpFunc simZero leakState "secret").data :=
  ⟨rfl, rfl, rfl,
    ⟨(_SEP ++ "\n\x7bCHelp for \x7bwsecret\x7bn\n").data, ("\n" ++ _SEP).data, by rfl⟩⟩

/-- Claim C4 (amended): access control in `CmdHelp` is the per-entry lock
check for the full listing, the category listing, the command match and the
suggestion vocabulary — every command so included has `auto_help` set and
passes the caller\x27s access check, and every topic so included passes the
view check; the exact database topic match, however, is performed on the
unfiltered topic table and renders its match regardless of the view lock. -/
theorem C4_access_control_amended (sim : String → String → ℚ) (st : HelpState) (q : String) :
    (∀ cat k : String,
      k ∈ hdictGet (bucketBy (fun c => c.help_category) (fun c => c.key) (accessibleCmds st)) cat →
      ∃ c : Cmd, c ∈ st.cmds ∧ c.auto_help = true ∧ c.access = true ∧ c.key = k) ∧
    (∀ cat k : String,
      k ∈ hdictGet (bucketBy (fun t => t.help_category) (fun t => t.key) (accessibleTopics st)) cat →
      ∃ t : Topic, t ∈ st.topics ∧ t.viewAccess = true ∧ t.key = k) ∧
    (∀ s ∈ vocabularyOf st,
      (∃ c : Cmd, c ∈ st.cmds ∧ c.auto_help = true ∧ c.access = true ∧ (s = c.key ∨ s ∈ c.aliases)) ∨
      (∃ t : Topic, t ∈ st.topics ∧ t.viewAccess = true ∧ s = t.key) ∨
      s ∈ allCategoriesOf st) ∧
    (∀ c : Cmd, c ∈ cmdMatchesOf st q →
      c ∈ st.cmds ∧ c.auto_help = true ∧ c.access = true) ∧
    (∀ k : String,
      k ∈ ((accessibleCmds st).filter (fun c => c.help_category = q)).map (fun c => c.key) →
      ∃ c : Cmd, c ∈ st.cmds ∧ c.auto_help = true ∧ c.access = true ∧ c.key = k) ∧
    (∀ k : String,
      k ∈ ((accessibleTopics st).filter (fun t => t.help_category = q)).map (fun t => t.key) →
      ∃ t : Topic, t ∈ st.topics ∧ t.viewAccess = true ∧ t.key = k) ∧
    (∀ t : Topic, ¬ q = "" → ¬ q = "list" → ¬ q = "all" →
      ¬ (cmdMatchesOf st q).length = 1 → find_topicmatch_exact st.topics q = [t] →
      cmdHelpFunc sim st q =
        format_help_entry t.key t.entrytext t.aliases (suggestionsOf sim st q)) := by
  refine ⟨?_, ?_, ?_, ?_, ?_, ?_, ?_⟩
  · intro cat k hk
    obtain ⟨c, hc, hck, _⟩ := mem_bucketBy _ _ _ _ _ hk
    obtain ⟨h1, h2, h3⟩ := mem_accessibleCmds hc
    exact ⟨c, h1, h2, h3, hck⟩
  · intro cat k hk
    obtain ⟨t, ht, htk, _⟩ := mem_bucketBy _ _ _ _ _ hk
    obtain ⟨h1, h2⟩ := mem_accessibleTopics ht
    exact ⟨t, h1, h2, htk⟩
  · intro s hs
    unfold vocabularyOf at hs
    simp only [List.mem_append] at hs
    rcases hs with ((hs | hs) | hs) | hs
    · rw [List.mem_map] at hs
      obtain ⟨c, hc, hck⟩ := hs
      obtain ⟨h1, h2, h3⟩ := mem_accessibleCmds hc
      exact Or.inl ⟨c, h1, h2, h3, Or.inl hck.symm⟩
    · rw [List.mem_map] at hs
      obtain ⟨t, ht, htk⟩ := hs
      obtain ⟨h1, h2⟩ := mem_accessibleTopics ht
      exact Or.inr (Or.inl ⟨t, h1, h2, htk.symm⟩)
    · exact Or.inr (Or.inr hs)
    · rw [List.mem_flatMap] at hs
      obtain ⟨c, hc, hck⟩ := hs
      obtain ⟨h1, h2, h3⟩ := mem_accessibleCmds hc
      exact Or.inl ⟨c, h1, h2, h3, Or.inr hck⟩
  · intro c hc
    unfold cmdMatchesOf at hc
    rw [List.mem_filter] at hc
    exact mem_accessibleCmds hc.1
  · intro k hk
    rw [List.mem_map] at hk
    obtain ⟨c, hc, hck⟩ := hk
    rw [List.mem_filter] at hc
    obtain ⟨h1, h2, h3⟩ := mem_accessibleCmds hc.1
    exact ⟨c, h1, h2, h3, hck⟩
  · intro k hk
    rw [List.mem_map] at hk
    obtain ⟨t, ht, htk⟩ := hk
    rw [List.mem_filter] at ht
    obtain ⟨h1, h2⟩ := mem_accessibleTopics ht.1
    exact ⟨t, h1, h2, htk⟩
  · intro t hq hl ha hlen hm
    exact cmdHelpFunc_db_branch sim st q hq hl ha hlen t hm

/-- Witness for the amended C4 at the concrete leaking state. -/
theorem C4_access_control_amended_witness :
    cmdHelpFunc simZero leakState "secret" =
      format_help_entry secretTopic.key secretTopic.entrytext secretTopic.aliases
        (suggestionsOf simZero leakState "secret") :=
  (C4_access_control_amended simZero leakState "secret").2.2.2.2.2.2 secretTopic
    (by decide) (by decide) (by decide) (by decide) (by decide)

theorem mem_fillLoop (W : List String) :
    ∀ (ws acc : List String) (cur : String),
      (∀ l ∈ acc, l.length ≤ CLIENT_DEFAULT_WIDTH ∨ l ∈ W) →
      (cur.length ≤ CLIENT_DEFAULT_WIDTH ∨ cur ∈ W) →
      (∀ w ∈ ws, w ∈ W) →
      ∀ l ∈ fillLoop acc cur ws, l.length ≤ CLIENT_DEFAULT_WIDTH ∨ l ∈ W := by
  intro ws
  induction ws with
  | nil =>
    intro acc cur hacc hcur hws l hl
    rw [show fillLoop acc cur [] = acc ++ [cur] from rfl] at hl
    rcases List.mem_append.mp hl with h | h
    · exact hacc l h
    · rw [List.mem_singleton.mp h]
      exact hcur
  | cons w ws ih =>
    intro acc cur hacc hcur hws l hl
    have hwW : w ∈ W := hws w (List.mem_cons_self w ws)
    have hwsW : ∀ w0 ∈ ws, w0 ∈ W := fun w0 h0 => hws w0 (List.mem_cons_of_mem w h0)
    simp only [fillLoop] at hl
    by_cases h0 : cur = ""
    · rw [if_pos h0] at hl
      exact ih acc w hacc (Or.inr hwW) hwsW l hl
    · rw [if_neg h0] at hl
      by_cases h1 : cur.length + 1 + w.length ≤ CLIENT_DEFAULT_WIDTH
      · rw [if_pos h1] at hl
        have hlen : (cur ++ " " ++ w).length ≤ CLIENT_DEFAULT_WIDTH := by
          rw [String.length_append, String.length_append]
          exact h1
        exact ih acc (cur ++ " " ++ w) hacc (Or.inl hlen) hwsW l hl
      · rw [if_neg h1] at hl
        have hacc2 : ∀ l0 ∈ acc ++ [cur], l0.length ≤ CLIENT_DEFAULT_WIDTH ∨ l0 ∈ W := by
          intro l0 h0'
          rcases List.mem_append.mp h0' with h2 | h2
          · exact hacc l0 h2
          · rw [List.mem_singleton.mp h2]
            exact hcur
        exact ih (acc ++ [cur]) w hacc2 (Or.inr hwW) hwsW l hl

/-- Claim C8: formatting targets a fixed-width display — the separator is
exactly `CLIENT_DEFAULT_WIDTH` dashes plus colour codes, every
`format_help_entry` output starts with separator-plus-newline and ends with
newline-plus-separator, and filled text is broken into lines that fit the
width unless a single word is longer than it. -/
theorem C8_fixed_width_display :
    (_SEP.data.count (Char.ofNat 45) = CLIENT_DEFAULT_WIDTH ∧
      _SEP = "\x7bC" ++ ⟨List.replicate CLIENT_DEFAULT_WIDTH (Char.ofNat 45)⟩ ++ "\x7bn") ∧
    (∀ (title ht : String) (al sug : List String),
      (_SEP ++ "\n").data <+: (format_help_entry title ht al sug).data ∧
      ("\n" ++ _SEP).data <:+ (format_help_entry title ht al sug).data) ∧
    (∀ s : String, ∀ l ∈ fillLines s, l.length ≤ CLIENT_DEFAULT_WIDTH ∨ l ∈ fillWords s) ∧
    (∀ s : String, fill s = String.intercalate "\n" (fillLines s)) := by
  refine ⟨⟨by decide, rfl⟩, ?_, ?_, fun s => rfl⟩
  · intro title ht al sug
    constructor
    · refine ⟨(feBody title ht al sug ++ "\n" ++ _SEP).data, ?_⟩
      show (_SEP ++ "\n").data ++ _ = (_SEP ++ "\n" ++ feBody title ht al sug ++ "\n" ++ _SEP).data
      simp only [String.data_append, List.append_assoc]
    · refine ⟨(_SEP ++ "\n" ++ feBody title ht al sug).data, ?_⟩
      show _ ++ ("\n" ++ _SEP).data = (_SEP ++ "\n" ++ feBody title ht al sug ++ "\n" ++ _SEP).data
      simp only [String.data_append, List.append_assoc]
  · intro s l hl
    exact mem_fillLoop (fillWords s) (fillWords s) [] "" (fun l0 h0 => absurd h0 (List.not_mem_nil l0))
      (Or.inl (by rw [show ("" : String).length = 0 from rfl]; omega)) (fun w hw => hw) l hl

/-- Witness for C8: the two-word text fits on one line of the filled output. -/
theorem C8_fixed_width_display_witness :
    "alpha beta".length ≤ CLIENT_DEFAULT_WIDTH ∨ "alpha beta" ∈ fillWords "alpha beta" :=
  C8_fixed_width_display.2.2.1 "alpha beta" "alpha beta" (by decide)

theorem sortStrings_sorted (l : List String) :
    List.Sorted (fun a b => a ≤ b) (sortStrings l) :=
  List.sorted_insertionSort (fun a b => a ≤ b) l

/-- Claim C6: `format_help_list` renders the command section before the
database section; within each section the categories are iterated in ascending
sorted order and within each category the entry names are rendered in
ascending sorted order, comma-separated; an empty dictionary (or one with only
empty entry lists) contributes nothing. -/
theorem C6_category_ordered_listing (hc hd : HDict) :
    (format_help_list hc hd = cmdsSection hc ++ dbSection hd) ∧
    List.Sorted (fun a b => a ≤ b) (sortStrings (hdictKeys hc)) ∧
    List.Sorted (fun a b => a ≤ b) (sortStrings (hdictKeys hd)) ∧
    (∀ cat : String,
      List.Sorted (fun a b => a ≤ b) (sortStrings (hdictGet hc cat)) ∧
      List.Sorted (fun a b => a ≤ b) (sortStrings (hdictGet hd cat))) ∧
    (∀ cat : String,
      cmdCatBlock hc cat = "\n  \x7bw" ++ pyTitle cat ++ "\x7bn:\n"
        ++ "\x7bG" ++ fill (String.intercalate ", " (sortStrings (hdictGet hc cat))) ++ "\x7bn" ∧
      dbCatBlock hd cat = "\n\r  \x7bw" ++ pyTitle cat ++ "\x7bn:\n"
        ++ "\x7bG" ++ fill (String.intercalate ", " (sortStrings (hdictGet hd cat))) ++ "\x7bn") ∧
    (¬ cmdsSection hc = "" →
      cmdsSection hc = "\n" ++ _SEP ++ "\n   \x7bCCommand help entries\x7bn\n" ++ _SEP
        ++ String.join ((sortStrings (hdictKeys hc)).map (cmdCatBlock hc))) ∧
    (¬ dbSection hd = "" →
      dbSection hd = "\n\n" ++ _SEP ++ "\n\r  \x7bCOther help entries\x7bn\n" ++ _SEP
        ++ String.join ((sortStrings (hdictKeys hd)).map (dbCatBlock hd))) ∧
    ((hc = [] ∨ ∀ p ∈ hc, p.2 = []) → cmdsSection hc = "") ∧
    ((hd = [] ∨ ∀ p ∈ hd, p.2 = []) → dbSection hd = "") := by
  refine ⟨rfl, sortStrings_sorted _, sortStrings_sorted _,
    fun cat => ⟨sortStrings_sorted _, sortStrings_sorted _⟩,
    fun cat => ⟨rfl, rfl⟩, ?_, ?_, ?_, ?_⟩
  · intro hne
    unfold cmdsSection at hne ⊢
    by_cases hcond : ¬ hc = [] ∧ hc.any (fun p => ¬ p.2.isEmpty) = true
    · rw [if_pos hcond]
    · rw [if_neg hcond] at hne
      exact absurd rfl hne
  · intro hne
    unfold dbSection at hne ⊢
    by_cases hcond : ¬ hd = [] ∧ hd.any (fun p => ¬ p.2.isEmpty) = true
    · rw [if_pos hcond]
    · rw [if_neg hcond] at hne
      exact absurd rfl hne
  · intro hemp
    unfold cmdsSection
    rw [if_neg]
    intro hcond
    rcases hemp with rfl | hall
    · exact hcond.1 rfl
    · have h2 := hcond.2
      rw [List.any_eq_true] at h2
      obtain ⟨p, hp, hp2⟩ := h2
      have h3 := of_decide_eq_true hp2
      rw [hall p hp] at h3
      exact h3 rfl
  · intro hemp
    unfold dbSection
    rw [if_neg]
    intro hcond
    rcases hemp with rfl | hall
    · exact hcond.1 rfl
    · have h2 := hcond.2
      rw [List.any_eq_true] at h2
      obtain ⟨p, hp, hp2⟩ := h2
      have h3 := of_decide_eq_true hp2
      rw [hall p hp] at h3
      exact h3 rfl

/-- Witness for C6: a dictionary whose only category has no entries renders an
empty command section. -/
theorem C6_category_ordered_listing_witness :
    cmdsSection [("General", [])] = "" :=
  (C6_category_ordered_listing [("General", [])] []).2.2.2.2.2.2.2.1 (by decide)

/-- Claim C3: every failure branch of `CmdSetHelp.func` leaves the help table
unchanged and sends an explanatory message — no arguments, empty topic,
append/merge/extend or delete on a missing topic, append or create without
right-hand-side text, and an existing topic without the replace switch (as a
create attempt, with none of the editing switches). -/
theorem C3_failure_branches_preserve_db (st : List Topic) (inp : SetHelpInput) :
    (inp.args = "" → cmdSetHelpFunc st inp = (st, setHelpUsageMsg)) ∧
    (¬ inp.args = "" → topicstr0Of inp = "" →
      cmdSetHelpFunc st inp = (st, "You have to define a topic!")) ∧
    (¬ inp.args = "" → ¬ topicstr0Of inp = "" →
      (inp.switches.contains "append" = true ∨ inp.switches.contains "merge" = true ∨
        inp.switches.contains "extend" = true) →
      oldEntryOf st inp = none →
      cmdSetHelpFunc st inp =
        (st, "Could not find topic \x27" ++ topicstrOf inp
          ++ "\x27. You must give an exact name.")) ∧
    (¬ inp.args = "" → ¬ topicstr0Of inp = "" →
      (inp.switches.contains "append" = true ∨ inp.switches.contains "merge" = true ∨
        inp.switches.contains "extend" = true) →
      ∀ e : Topic, oldEntryOf st inp = some e → inp.rhs = "" →
      cmdSetHelpFunc st inp = (st, "You must supply text to append/merge.")) ∧
    (¬ inp.args = "" → ¬ topicstr0Of inp = "" →
      inp.switches.contains "append" = false → inp.switches.contains "merge" = false →
      inp.switches.contains "extend" = false →
      (inp.switches.contains "delete" = true ∨ inp.switches.contains "del" = true) →
      oldEntryOf st inp = none →
      cmdSetHelpFunc st inp =
        (st, "Could not find topic \x27" ++ topicstrOf inp ++ "\x27" ++ aliastxtOf inp ++ ".")) ∧
    (¬ inp.args = "" → ¬ topicstr0Of inp = "" →
      inp.switches.contains "append" = false → inp.switches.contains "merge" = false →
      inp.switches.contains "extend" = false → inp.switches.contains "delete" = false →
      inp.switches.contains "del" = false → inp.rhs = "" →
      cmdSetHelpFunc st inp = (st, "You must supply a help text to add.")) ∧
    (¬ inp.args = "" → ¬ topicstr0Of inp = "" →
      inp.switches.contains "append" = false → inp.switches.contains "merge" = false →
      inp.switches.contains "extend" = false → inp.switches.contains "delete" = false →
      inp.switches.contains "del" = false → ¬ inp.rhs = "" →
      ∀ e : Topic, oldEntryOf st inp = some e → inp.switches.contains "replace" = false →
      cmdSetHelpFunc st inp =
        (st, "Topic \x27" ++ topicstrOf inp ++ "\x27" ++ aliastxtOf inp
          ++ " already exists. Use /replace to overwrite or /append or /merge to add text to it.")) := by
  refine ⟨?_, ?_, ?_, ?_, ?_, ?_, ?_⟩
  · intro h1
    simp only [cmdSetHelpFunc, h1]
    simp
  · intro h1 h2
    simp only [cmdSetHelpFunc, h1, h2]
    simp
  · intro h1 h2 h3 h4
    have hsw : (inp.switches.contains "append" || inp.switches.contains "merge"
        || inp.switches.contains "extend") = true := by
      rcases h3 with h | h | h <;> simp only [h, Bool.or_true, Bool.true_or]
    simp only [cmdSetHelpFunc, h1, h2, hsw, h4]
    simp
  · intro h1 h2 h3 e he h5
    have hsw : (inp.switches.contains "append" || inp.switches.contains "merge"
        || inp.switches.contains "extend") = true := by
      rcases h3 with h | h | h <;> simp only [h, Bool.or_true, Bool.true_or]
    simp only [cmdSetHelpFunc, h1, h2, hsw, he, h5]
    simp
  · intro h1 h2 h3 h4 h5 h6 h7
    have hsw : (inp.switches.contains "append" || inp.switches.contains "merge"
        || inp.switches.contains "extend") = false := by
      rw [h3, h4, h5]
      rfl
    have hdw : (inp.switches.contains "delete" || inp.switches.contains "del") = true := by
      rcases h6 with h | h <;> simp only [h, Bool.or_true, Bool.true_or]
    simp only [cmdSetHelpFunc, h1, h2, hsw, hdw, h7]
    simp
  · intro h1 h2 h3 h4 h5 h6 h7 h8
    have hsw : (inp.switches.contains "append" || inp.switches.contains "merge"
        || inp.switches.contains "extend") = false := by
      rw [h3, h4, h5]
      rfl
    have hdw : (inp.switches.contains "delete" || inp.switches.contains "del") = false := by
      rw [h6, h7]
      rfl
    simp only [cmdSetHelpFunc, h1, h2, hsw, hdw, h8]
    simp
  · intro h1 h2 h3 h4 h5 h6 h7 h8 e he h9
    have hsw : (inp.switches.contains "append" || inp.switches.contains "merge"
        || inp.switches.contains "extend") = false := by
      rw [h3, h4, h5]
      rfl
    have hdw : (inp.switches.contains "delete" || inp.switches.contains "del") = false := by
      rw [h6, h7]
      rfl
    simp only [cmdSetHelpFunc, h1, h2, hsw, hdw, h8, he, h9]
    simp

/-- Witness for C3: the invocation with no arguments sends the usage message
and leaves the (empty) table unchanged. -/
theorem C3_failure_branches_preserve_db_witness :
    cmdSetHelpFunc [] ⟨"", [], "", []⟩ = ([], setHelpUsageMsg) :=
  (C3_failure_branches_preserve_db [] ⟨"", [], "", []⟩).1 rfl

/-- Claim C2 (amended): `CmdSetHelp.func` performs exactly the four
persisted-topic operations — create (new entry with the given name, text,
category and lock string), append/merge/extend (text appended to the existing
text), replace (key, text, category and locks overwritten, while the supplied
aliases are added to the entry\x27s existing aliases rather than replacing
them) and delete (entry removed). -/
theorem C2_sethelp_operations_amended (st : List Topic) (inp : SetHelpInput)
    (h1 : ¬ inp.args = "") (h2 : ¬ topicstr0Of inp = "") :
    (inp.switches.contains "append" = false → inp.switches.contains "merge" = false →
      inp.switches.contains "extend" = false → inp.switches.contains "delete" = false →
      inp.switches.contains "del" = false →
      oldEntryOf st inp = none → ¬ inp.rhs = "" →
      cmdSetHelpFunc st inp =
        (st ++ [{ id := freshId st
                  key := topicstrOf inp
                  entrytext := inp.rhs
                  help_category := categoryOf st inp
                  aliases := aliasesOf inp
                  viewAccess := true
                  lockstring := lockstringOf st inp }],
          "Topic \x27" ++ topicstrOf inp ++ "\x27" ++ aliastxtOf inp
            ++ " was successfully created.")) ∧
    ((inp.switches.contains "append" = true ∨ inp.switches.contains "extend" = true) →
      inp.switches.contains "merge" = false →
      ∀ e : Topic, oldEntryOf st inp = some e → ¬ inp.rhs = "" →
      cmdSetHelpFunc st inp =
        (st.map (fun t => if t.id = e.id then
            { t with
              entrytext := e.entrytext ++ "\n" ++ inp.rhs
              aliases := t.aliases ++ aliasesOf inp } else t),
          "Entry updated:\n" ++ (e.entrytext ++ "\n" ++ inp.rhs) ++ aliastxtOf inp)) ∧
    (inp.switches.contains "merge" = true →
      ∀ e : Topic, oldEntryOf st inp = some e → ¬ inp.rhs = "" →
      cmdSetHelpFunc st inp =
        (st.map (fun t => if t.id = e.id then
            { t with
              entrytext := e.entrytext ++ " " ++ inp.rhs
              aliases := t.aliases ++ aliasesOf inp } else t),
          "Entry updated:\n" ++ (e.entrytext ++ " " ++ inp.rhs) ++ aliastxtOf inp)) ∧
    (inp.switches.contains "append" = false → inp.switches.contains "merge" = false →
      inp.switches.contains "extend" = false → inp.switches.contains "delete" = false →
      inp.switches.contains "del" = false → inp.switches.contains "replace" = true →
      ∀ e : Topic, oldEntryOf st inp = some e → ¬ inp.rhs = "" →
      cmdSetHelpFunc st inp =
        (st.map (fun t => if t.id = e.id then
            { t with
              key := topicstrOf inp
              entrytext := inp.rhs
              help_category := categoryOf st inp
              lockstring := lockstringOf st inp
              aliases := t.aliases ++ aliasesOf inp } else t),
          "Overwrote the old topic \x27" ++ topicstrOf inp ++ "\x27" ++ aliastxtOf inp ++ ".")) ∧
    (inp.switches.contains "append" = false → inp.switches.contains "merge" = false →
      inp.switches.contains "extend" = false →
      (inp.switches.contains "delete" = true ∨ inp.switches.contains "del" = true) →
      ∀ e : Topic, oldEntryOf st inp = some e →
      cmdSetHelpFunc st inp =
        (st.filter (fun t => ¬ t.id = e.id),
          "Deleted help entry \x27" ++ topicstrOf inp ++ "\x27" ++ aliastxtOf inp ++ ".")) := by
  refine ⟨?_, ?_, ?_, ?_, ?_⟩
  · intro h3 h4 h5 h6 h7 he hrhs
    have hsw : (inp.switches.contains "append" || inp.switches.contains "merge"
        || inp.switches.contains "extend") = false := by
      rw [h3, h4, h5]
      rfl
    have hdw : (inp.switches.contains "delete" || inp.switches.contains "del") = false := by
      rw [h6, h7]
      rfl
    simp only [cmdSetHelpFunc, h1, h2, hsw, hdw, he, hrhs]
    simp
  · intro h3 h4 e he hrhs
    have hsw : (inp.switches.contains "append" || inp.switches.contains "merge"
        || inp.switches.contains "extend") = true := by
      rcases h3 with h | h <;> simp only [h, h4, Bool.or_true, Bool.true_or, Bool.false_or]
    simp only [cmdSetHelpFunc, h1, h2, hsw, he, hrhs]
    simp only [h4]
    simp
  · intro h3 e he hrhs
    have hsw : (inp.switches.contains "append" || inp.switches.contains "merge"
        || inp.switches.contains "extend") = true := by
      simp only [h3, Bool.or_true, Bool.true_or]
    simp only [cmdSetHelpFunc, h1, h2, hsw, he, hrhs]
    simp only [h3]
    simp
  · intro h3 h4 h5 h6 h7 h8 e he hrhs
    have hsw : (inp.switches.contains "append" || inp.switches.contains "merge"
        || inp.switches.contains "extend") = false := by
      rw [h3, h4, h5]
      rfl
    have hdw : (inp.switches.contains "delete" || inp.switches.contains "del") = false := by
      rw [h6, h7]
      rfl
    simp only [cmdSetHelpFunc, h1, h2, hsw, hdw, h8, he, hrhs]
    simp
  · intro h3 h4 h5 h6 e he
    have hsw : (inp.switches.contains "append" || inp.switches.contains "merge"
        || inp.switches.contains "extend") = false := by
      rw [h3, h4, h5]
      rfl
    have hdw : (inp.switches.contains "delete" || inp.switches.contains "del") = true := by
      rcases h6 with h | h <;> simp only [h, Bool.or_true, Bool.true_or]
    simp only [cmdSetHelpFunc, h1, h2, hsw, hdw, he]
    simp

/-- Witness for the amended C2: a fresh topic is created on an empty table. -/
theorem C2_sethelp_operations_amended_witness :
    cmdSetHelpFunc [] ⟨"guide = Read this.", ["guide"], "Read this.", []⟩ =
      ([{ id := 1
          key := "guide"
          entrytext := "Read this."
          help_category := "general"
          aliases := []
          viewAccess := true
          lockstring := "view:all()" }],
        "Topic \x27guide\x27 was successfully created.") := by
  have h := (C2_sethelp_operations_amended [] ⟨"guide = Read this.", ["guide"], "Read this.", []⟩
    (by decide) (by decide)).1 rfl rfl rfl rfl rfl (by decide) (by decide)
  rw [h]
  rfl

/-- Table holding the entry targeted by the replace counterexample. -/
def stReplace : List Topic := [⟨0, "pick", "old", "general", ["x"], true, "view:all()"⟩]

/-- Replace invocation that supplies the alias `y` for an entry that already
has the alias `x`. -/
def inpReplace : SetHelpInput := ⟨"pick;y = new", ["pick;y"], "new", ["replace"]⟩

/-- Counterexample to claim C2: the claim promises that replace overwrites the
entry\x27s aliases with the new values, but the source only adds the supplied
aliases (`old_entry.aliases.add(aliases)`, with no clear, unlike the locks) —
after replacing with alias `y` the entry still carries the old alias `x`. -/
theorem C2_counterexample :
    aliasesOf inpReplace = ["y"] ∧
    (cmdSetHelpFunc stReplace inpReplace).1.map (fun t => t.aliases) = [["x", "y"]] ∧
    ¬ ([["x", "y"]] : List (List String)) = [["y"]] :=
  ⟨rfl, rfl, by decide⟩

end EvenniaHelp
